import Mathlib

/-!
Verification of the `iced_wgpu` image pipeline (texture-atlas draw batcher)
and the wgpu window compositor of this repository.

The embedding follows `iced/wgpu/src/image.rs` and
`iced/wgpu/src/window/compositor.rs`. The atlas data types (`Allocation`,
`Fragment`, `Entry`, `SIZE`) live in `image/atlas.rs`, which is not among the
provided sources; they are modelled from the specification's data model
(spec sections 3 and 4.2). All `f32` arithmetic of the source is modelled
exactly over `ℚ`; GPU objects (device, encoder, staging belt, render passes)
are modelled as an emitted command list.
-/

namespace IcedWgpu

/-- Modelled from the spec: `Allocation` of `image/atlas.rs` (file not among
the provided sources). Spec section 3: `{ position: (u32,u32),
size: (u32,u32), layer: usize }`; the source exposes `position()`, `size()`
and `layer()` accessors, modelled as fields. -/
structure Allocation where
  position : Nat × Nat
  size : Nat × Nat
  layer : Nat
  deriving DecidableEq, Repr

/-- Modelled from the spec: `Fragment` of `image/atlas.rs` (file not among
the provided sources). Spec section 3: `{ position: (u32,u32) [offset within
original content], allocation: Allocation }`. -/
structure Fragment where
  position : Nat × Nat
  allocation : Allocation
  deriving DecidableEq, Repr

/-- Modelled from the spec: `Entry` of `image/atlas.rs` (file not among the
provided sources). Spec section 3: tagged union, `Contiguous(Allocation)` or
`Fragmented { fragments, size }`. -/
inductive Entry where
  | Contiguous (allocation : Allocation)
  | Fragmented (fragments : List Fragment) (size : Nat × Nat)
  deriving DecidableEq, Repr

/-- Modelled from the spec: the fixed square layer dimension `SIZE` of
`image/atlas.rs` (file not among the provided sources); the spec's example
scenario (section 8) fixes `SIZE = 2048`. -/
def SIZE : Nat := 2048

/-- The per-draw GPU instance record of `image.rs` (`struct Instance`).
Field `_layer: u32` stores the allocation's layer index. -/
structure Instance where
  position : ℚ × ℚ
  size : ℚ × ℚ
  positionInAtlas : ℚ × ℚ
  sizeInAtlas : ℚ × ℚ
  layer : Nat
  deriving DecidableEq, Repr

/-- `Instance::MAX` of `image.rs`: the instance-buffer capacity (1000). -/
def Instance.MAX : Nat := 1000

/-- Byte size of `Instance` (`repr(C)`: four `[f32; 2]` fields and one
`u32`, 9 × 4 = 36 bytes, no padding). -/
def instanceByteSize : Nat := 36

/-- Byte size of `Uniforms` (`repr(C)`: `transform: [f32; 16]`, 64 bytes). -/
def uniformsByteSize : Nat := 64

/-- `QUAD_INDICES` of `image.rs`. -/
def QUAD_INDICES : List Nat := [0, 1, 2, 0, 2, 3]

/-- `QUAD_VERTS` of `image.rs`: the unit square's corner vertices. -/
def QUAD_VERTS : List (ℚ × ℚ) :=
  [(0, 0), (1, 0), (1, 1), (0, 1)]

/-- The instance record constructed by `add_instance` in `image.rs` from a
destination `position`/`size` and an atlas `Allocation`. -/
def instanceFor (position size : ℚ × ℚ) (allocation : Allocation) : Instance :=
  { position := position
    size := size
    positionInAtlas :=
      (((allocation.position.1 : ℚ) + 1/2) / (SIZE : ℚ),
       ((allocation.position.2 : ℚ) + 1/2) / (SIZE : ℚ))
    sizeInAtlas :=
      (((allocation.size.1 : ℚ) - 1) / (SIZE : ℚ),
       ((allocation.size.2 : ℚ) - 1) / (SIZE : ℚ))
    layer := allocation.layer }

/-- `add_instance` of `image.rs`: pushes one instance built from the
allocation onto the instance vector. -/
def add_instance (position size : ℚ × ℚ) (allocation : Allocation)
    (instances : List Instance) : List Instance :=
  instances ++ [instanceFor position size allocation]

/-- `add_instances` of `image.rs`: a `Contiguous` entry yields one instance;
a `Fragmented` entry yields one instance per fragment, with destination
position/size scaled per axis by `image_size / size`. -/
def add_instances (image_position image_size : ℚ × ℚ) (entry : Entry)
    (instances : List Instance) : List Instance :=
  match entry with
  | Entry.Contiguous allocation =>
      add_instance image_position image_size allocation instances
  | Entry.Fragmented fragments size =>
      let scaling_x : ℚ := image_size.1 / (size.1 : ℚ)
      let scaling_y : ℚ := image_size.2 / (size.2 : ℚ)
      fragments.foldl (fun acc fragment =>
        let allocation := fragment.allocation
        let x := image_position.1
        let y := image_position.2
        let fragment_x := (fragment.position.1 : ℚ)
        let fragment_y := (fragment.position.2 : ℚ)
        let fragment_width := (allocation.size.1 : ℚ)
        let fragment_height := (allocation.size.2 : ℚ)
        add_instance
          (x + fragment_x * scaling_x, y + fragment_y * scaling_y)
          (fragment_width * scaling_x, fragment_height * scaling_y)
          allocation acc) instances

/-- GPU work recorded by `Pipeline::draw` (`image.rs`) on the encoder /
staging belt, in recording order: texture-atlas bind-group recreation,
a staging-belt write of the `Uniforms` payload, a staging-belt write of an
instance-data slice, and one render pass with a scissor rectangle issuing
one instanced `draw_indexed` call. -/
inductive GpuCmd where
  | createBindGroup (layerCount : Nat)
  | writeUniforms (byteSize : Nat) (transform : List ℚ)
  | writeInstances (byteSize : Nat) (data : List Instance)
  | renderPass (scissor : Nat × Nat × Nat × Nat) (indexCount : Nat)
      (instanceCount : Nat)
  deriving DecidableEq, Repr

/-- The mutable pipeline state relevant to draw submission: the stored
`texture_version` and the texture bind group (identified by the layer count
it was built from, since `Pipeline::new` and the rebuild both construct it
from the atlas's current view). -/
structure Pipeline where
  texture_version : Nat
  texture : Nat
  deriving DecidableEq, Repr

/-- The `texture_version` initialisation of `Pipeline::new` (`image.rs`):
both the bind group and the stored version come from the freshly created
atlas's `layer_count()`. -/
def Pipeline.new (initialLayerCount : Nat) : Pipeline :=
  { texture_version := initialLayerCount, texture := initialLayerCount }

/-- One frame's draw request as seen by the loop over `images` in
`Pipeline::draw`: destination bounds `(x, y, width, height)` and the
`Option<&Entry>` returned by the (raster or vector) cache's `upload` for the
request's handle. The cache modules are not among the provided sources, so
the upload result is carried by the request. -/
structure ImageRequest where
  x : ℚ
  y : ℚ
  width : ℚ
  height : ℚ
  entry : Option Entry
  deriving DecidableEq, Repr

/-- The upload phase of `Pipeline::draw`: the loop over `images`, calling
`add_instances` with the request's bounds for every successful upload, in
request order, accumulating into the instance vector. -/
def collectInstances (images : List ImageRequest) : List Instance :=
  images.foldl (fun instances image =>
    match image.entry with
    | some atlas_entry =>
        add_instances (image.x, image.y) (image.width, image.height)
          atlas_entry instances
    | none => instances) []

/-- The instances a single request contributes, starting from an empty
accumulator (used to state order preservation of `collectInstances`). -/
def requestInstances (image : ImageRequest) : List Instance :=
  match image.entry with
  | some atlas_entry =>
      add_instances (image.x, image.y) (image.width, image.height)
        atlas_entry []
  | none => []

/-- The `(i, amount)` pairs produced by the batching loop of
`Pipeline::draw`: starting from `i`, while `i < total`, one batch with
`amount = min (i + Instance::MAX) total - i`, then `i += Instance::MAX`. -/
def batchIndices (i total : Nat) : List (Nat × Nat) :=
  if _h : i < total then
    (i, min (i + Instance.MAX) total - i) :: batchIndices (i + Instance.MAX) total
  else []
termination_by total - i
decreasing_by
  have hM : Instance.MAX = 1000 := rfl
  omega

/-- The commands one iteration of the batching loop records for the pair
`(i, amount)`: a staging-belt write of `amount * size_of::<Instance>()`
bytes holding `instances[i..i + amount]`, then one render pass scoped to
the viewport `bounds` scissor rectangle issuing `draw_indexed` over
`QUAD_INDICES` with `amount` instances. -/
def batchCmdsOf (ps : List (Nat × Nat)) (instances : List Instance)
    (bounds : Nat × Nat × Nat × Nat) : List GpuCmd :=
  ps.flatMap fun p =>
    [GpuCmd.writeInstances (p.2 * instanceByteSize)
        ((instances.drop p.1).take p.2),
     GpuCmd.renderPass bounds QUAD_INDICES.length p.2]

/-- The whole batching loop of `Pipeline::draw`. -/
def batchCmds (instances : List Instance)
    (bounds : Nat × Nat × Nat × Nat) : List GpuCmd :=
  batchCmdsOf (batchIndices 0 instances.length) instances bounds

/-- The bind-group rebuild step of `Pipeline::draw`: when the stored
`texture_version` differs from the atlas's current `layer_count()`, the
bind group is recreated from the atlas view and the stored version is
updated; otherwise nothing happens. -/
def rebuildStep (st : Pipeline) (layerCount : Nat) : Pipeline × List GpuCmd :=
  if st.texture_version ≠ layerCount then
    ({ texture_version := layerCount, texture := layerCount },
     [GpuCmd.createBindGroup layerCount])
  else (st, [])

/-- The part of `Pipeline::draw` after the upload loop: early return when
the instance list is empty; otherwise the bind-group rebuild check, one
staging-belt write of the `Uniforms` payload, then the batching loop. -/
def drawTail (st : Pipeline) (layerCount : Nat) (transform : List ℚ)
    (bounds : Nat × Nat × Nat × Nat) (instances : List Instance) :
    Pipeline × List GpuCmd :=
  if instances.isEmpty then (st, [])
  else
    let r := rebuildStep st layerCount
    (r.1,
     r.2 ++ [GpuCmd.writeUniforms uniformsByteSize transform]
         ++ batchCmds instances bounds)

/-- `Pipeline::draw` of `image.rs`: the upload loop producing the instance
list, followed by `drawTail`. `layerCount` is the atlas's `layer_count()`
as read after the uploads. -/
def Pipeline.draw (st : Pipeline) (images : List ImageRequest)
    (layerCount : Nat) (transform : List ℚ)
    (bounds : Nat × Nat × Nat × Nat) : Pipeline × List GpuCmd :=
  drawTail st layerCount transform bounds (collectInstances images)

/-- Command observers used to state properties of the emitted command
list. -/
def GpuCmd.isRenderPass : GpuCmd → Bool
  | GpuCmd.renderPass _ _ _ => true
  | _ => false

/-- True exactly on staging-belt writes of instance data. -/
def GpuCmd.isWriteInstances : GpuCmd → Bool
  | GpuCmd.writeInstances _ _ => true
  | _ => false

/-- True exactly on staging-belt writes of the uniforms payload. -/
def GpuCmd.isWriteUniforms : GpuCmd → Bool
  | GpuCmd.writeUniforms _ _ => true
  | _ => false

/-- True exactly on bind-group recreations. -/
def GpuCmd.isCreateBindGroup : GpuCmd → Bool
  | GpuCmd.createBindGroup _ => true
  | _ => false

/-- The instance slice carried by a staging-belt instance write. -/
def GpuCmd.instanceData : GpuCmd → Option (List Instance)
  | GpuCmd.writeInstances _ data => some data
  | _ => none

/-- The instance count of an instanced draw call. -/
def GpuCmd.passCount : GpuCmd → Option Nat
  | GpuCmd.renderPass _ _ amount => some amount
  | _ => none

/-- The externally visible steps of `Compositor::draw`
(`window/compositor.rs`), in program order. -/
inductive CompositorEvent where
  | getCurrentFrame
  | createEncoder
  | clearPass
  | backendDraw
  | beltFinish
  | queueSubmit
  | spawnRecall
  | runUntilStalled
  deriving DecidableEq, Repr

/-- `Compositor::draw` of `window/compositor.rs` as its straight-line event
trace: acquire the frame, create the encoder, record the clearing render
pass, delegate to the backend's draw, mark the staging belt finished,
submit the command buffer, spawn the staging-belt recall onto the local
pool, and run the local pool until stalled. -/
def Compositor.draw : List CompositorEvent :=
  [CompositorEvent.getCurrentFrame,
   CompositorEvent.createEncoder,
   CompositorEvent.clearPass,
   CompositorEvent.backendDraw,
   CompositorEvent.beltFinish,
   CompositorEvent.queueSubmit,
   CompositorEvent.spawnRecall,
   CompositorEvent.runUntilStalled]

/-! Helper lemmas shared by the claim theorems. -/

/-- A fold that appends one element per step equals appending the map. -/
lemma foldl_append_singleton {α β : Type} (u : β → α) (l : List β)
    (acc : List α) :
    l.foldl (fun a b => a ++ [u b]) acc = acc ++ l.map u := by
  induction l generalizing acc with
  | nil => simp
  | cons b bs ih => simp [ih]

/-- The instance record the claim's formula produces for one fragment of a
`Fragmented` entry with original size `fsize`, drawn at destination
position `p` and size `s`. -/
def fragmentInstance (p s : ℚ × ℚ) (fsize : Nat × Nat) (f : Fragment) :
    Instance :=
  instanceFor
    (p.1 + (f.position.1 : ℚ) * (s.1 / (fsize.1 : ℚ)),
     p.2 + (f.position.2 : ℚ) * (s.2 / (fsize.2 : ℚ)))
    ((f.allocation.size.1 : ℚ) * (s.1 / (fsize.1 : ℚ)),
     (f.allocation.size.2 : ℚ) * (s.2 / (fsize.2 : ℚ)))
    f.allocation

/-- The `Fragmented` case of `add_instances` is the map of the per-fragment
formula, appended to the accumulator. -/
lemma add_instances_fragmented (p s : ℚ × ℚ) (frags : List Fragment)
    (fsize : Nat × Nat) (acc : List Instance) :
    add_instances p s (Entry.Fragmented frags fsize) acc
      = acc ++ frags.map (fragmentInstance p s fsize) := by
  simp only [add_instances]
  have : ∀ (fs : List Fragment) (a : List Instance),
      fs.foldl (fun acc fragment =>
        add_instance
          (p.1 + (fragment.position.1 : ℚ) * (s.1 / (fsize.1 : ℚ)),
           p.2 + (fragment.position.2 : ℚ) * (s.2 / (fsize.2 : ℚ)))
          ((fragment.allocation.size.1 : ℚ) * (s.1 / (fsize.1 : ℚ)),
           (fragment.allocation.size.2 : ℚ) * (s.2 / (fsize.2 : ℚ)))
          fragment.allocation acc) a
        = a ++ fs.map (fragmentInstance p s fsize) := by
    intro fs
    induction fs with
    | nil => intro a; simp
    | cons f ft ih =>
      intro a
      simp only [List.foldl_cons, List.map_cons, ih]
      simp [add_instance, fragmentInstance]
  exact this frags acc

/-- `add_instances` only appends to its accumulator. -/
lemma add_instances_eq_append (p s : ℚ × ℚ) (e : Entry)
    (acc : List Instance) :
    add_instances p s e acc = acc ++ add_instances p s e [] := by
  cases e with
  | Contiguous a => simp [add_instances, add_instance]
  | Fragmented frags fsize => simp [add_instances_fragmented]

/-- The upload loop's instance list is the request-order concatenation of
each request's instances. -/
lemma collectInstances_eq_flatMap (images : List ImageRequest) :
    collectInstances images = images.flatMap requestInstances := by
  have : ∀ (l : List ImageRequest) (acc : List Instance),
      l.foldl (fun instances image =>
        match image.entry with
        | some atlas_entry =>
            add_instances (image.x, image.y) (image.width, image.height)
              atlas_entry instances
        | none => instances) acc
        = acc ++ l.flatMap requestInstances := by
    intro l
    induction l with
    | nil => intro acc; simp
    | cons img rest ih =>
      intro acc
      simp only [List.foldl_cons, List.flatMap_cons]
      cases himg : img.entry with
      | some e =>
        simp only [himg, ih, requestInstances]
        rw [add_instances_eq_append]
        simp [himg]
      | none =>
        simp only [himg, ih, requestInstances]
        simp [himg]
  simpa [collectInstances] using this images []

/-- Length of the batch-index list: the ceiling of the remaining count
divided by `Instance::MAX`. -/
lemma batchIndices_length (i total : Nat) :
    (batchIndices i total).length
      = (total - i + (Instance.MAX - 1)) / Instance.MAX := by
  have hM : Instance.MAX = 1000 := rfl
  induction i, total using batchIndices.induct with
  | case1 i total h ih =>
    rw [batchIndices, dif_pos h]
    simp only [List.length_cons]
    rw [hM] at ih ⊢
    omega
  | case2 i total h =>
    rw [batchIndices, dif_neg h]
    rw [hM]
    simp
    omega

/-- Every batch index pair starts inside the instance list, carries at
least one and at most `Instance::MAX` instances, and stays in bounds. -/
lemma batchIndices_mem (i total : Nat) :
    ∀ p ∈ batchIndices i total,
      p.1 < total ∧ 1 ≤ p.2 ∧ p.2 ≤ Instance.MAX ∧ p.1 + p.2 ≤ total := by
  have hM : Instance.MAX = 1000 := rfl
  induction i, total using batchIndices.induct with
  | case1 i total h ih =>
    rw [batchIndices, dif_pos h]
    intro p hp
    rcases List.mem_cons.mp hp with hp | hp
    · subst hp
      refine ⟨h, ?_, ?_, ?_⟩ <;> (rw [hM] at *; omega)
    · exact ih p hp
  | case2 i total h =>
    rw [batchIndices, dif_neg h]
    intro p hp
    exact absurd hp (List.not_mem_nil p)

/-- Concatenating the slices named by the batch indices recovers the
instance list from position `i` on. -/
lemma batchIndices_flatten {α : Type} (l : List α) (i total : Nat)
    (htot : total = l.length) :
    ((batchIndices i total).map (fun p => (l.drop p.1).take p.2)).flatten
      = l.drop i := by
  have hM : Instance.MAX = 1000 := rfl
  induction i, total using batchIndices.induct with
  | case1 i total h ih =>
    subst htot
    rw [batchIndices, dif_pos h]
    simp only [List.map_cons, List.flatten_cons, ih rfl]
    by_cases hc : i + Instance.MAX ≤ l.length
    · have hmin : min (i + Instance.MAX) l.length - i = Instance.MAX := by
        omega
      rw [hmin, ← List.drop_drop, List.take_append_drop]
    · have hmin : min (i + Instance.MAX) l.length - i = l.length - i := by
        omega
      have hdrop : l.drop (i + Instance.MAX) = [] :=
        List.drop_eq_nil_of_le (by omega)
      have htake : (l.drop i).take (l.length - i) = l.drop i :=
        List.take_of_length_le (by simp)
      rw [hmin, hdrop, htake, List.append_nil]
  | case2 i total h =>
    subst htot
    rw [batchIndices, dif_neg h]
    simp only [List.map_nil, List.flatten_nil]
    exact (List.drop_eq_nil_of_le (by omega)).symm

/-- The render passes of the batching loop, one per batch index pair. -/
lemma batchCmdsOf_filter_renderPass (ps : List (Nat × Nat))
    (l : List Instance) (bd : Nat × Nat × Nat × Nat) :
    (batchCmdsOf ps l bd).filter GpuCmd.isRenderPass
      = ps.map (fun p => GpuCmd.renderPass bd QUAD_INDICES.length p.2) := by
  induction ps with
  | nil => simp [batchCmdsOf]
  | cons p pt ih =>
    simp only [batchCmdsOf, List.flatMap_cons] at *
    simp [List.filter_append, ih, GpuCmd.isRenderPass, GpuCmd.isWriteInstances]

/-- The instance writes of the batching loop, one per batch index pair. -/
lemma batchCmdsOf_filter_writeInstances (ps : List (Nat × Nat))
    (l : List Instance) (bd : Nat × Nat × Nat × Nat) :
    (batchCmdsOf ps l bd).filter GpuCmd.isWriteInstances
      = ps.map (fun p => GpuCmd.writeInstances (p.2 * instanceByteSize)
          ((l.drop p.1).take p.2)) := by
  induction ps with
  | nil => simp [batchCmdsOf]
  | cons p pt ih =>
    simp only [batchCmdsOf, List.flatMap_cons] at *
    simp [List.filter_append, ih, GpuCmd.isWriteInstances]

/-- The batching loop issues no uniform writes. -/
lemma batchCmdsOf_filter_writeUniforms (ps : List (Nat × Nat))
    (l : List Instance) (bd : Nat × Nat × Nat × Nat) :
    (batchCmdsOf ps l bd).filter GpuCmd.isWriteUniforms = [] := by
  induction ps with
  | nil => simp [batchCmdsOf]
  | cons p pt ih =>
    simp only [batchCmdsOf, List.flatMap_cons] at *
    simp [List.filter_append, ih, GpuCmd.isWriteUniforms]

/-- The batching loop issues no bind-group recreation. -/
lemma batchCmdsOf_filter_createBindGroup (ps : List (Nat × Nat))
    (l : List Instance) (bd : Nat × Nat × Nat × Nat) :
    (batchCmdsOf ps l bd).filter GpuCmd.isCreateBindGroup = [] := by
  induction ps with
  | nil => simp [batchCmdsOf]
  | cons p pt ih =>
    simp only [batchCmdsOf, List.flatMap_cons] at *
    simp [List.filter_append, ih, GpuCmd.isCreateBindGroup]

/-- The instance slices carried by the batching loop's writes. -/
lemma batchCmdsOf_filterMap_instanceData (ps : List (Nat × Nat))
    (l : List Instance) (bd : Nat × Nat × Nat × Nat) :
    (batchCmdsOf ps l bd).filterMap GpuCmd.instanceData
      = ps.map (fun p => (l.drop p.1).take p.2) := by
  induction ps with
  | nil => simp [batchCmdsOf]
  | cons p pt ih =>
    simp only [batchCmdsOf, List.flatMap_cons] at *
    simp [List.filterMap_append, ih, GpuCmd.instanceData]

/-- The instance counts of the batching loop's draw calls. -/
lemma batchCmdsOf_filterMap_passCount (ps : List (Nat × Nat))
    (l : List Instance) (bd : Nat × Nat × Nat × Nat) :
    (batchCmdsOf ps l bd).filterMap GpuCmd.passCount
      = ps.map (fun p => p.2) := by
  induction ps with
  | nil => simp [batchCmdsOf]
  | cons p pt ih =>
    simp only [batchCmdsOf, List.flatMap_cons] at *
    simp [List.filterMap_append, ih, GpuCmd.passCount]

/-- The rebuild step emits either nothing or one bind-group recreation. -/
lemma rebuildStep_cmds (st : Pipeline) (lc : Nat) :
    (rebuildStep st lc).2 = []
      ∨ (rebuildStep st lc).2 = [GpuCmd.createBindGroup lc] := by
  by_cases h : st.texture_version ≠ lc
  · right; simp [rebuildStep, h]
  · left; simp [rebuildStep, h]

/-- Unfolding `drawTail` in the non-empty case. -/
lemma drawTail_nonempty (st : Pipeline) (lc : Nat) (tr : List ℚ)
    (bd : Nat × Nat × Nat × Nat) (instances : List Instance)
    (h : instances ≠ []) :
    drawTail st lc tr bd instances
      = ((rebuildStep st lc).1,
         (rebuildStep st lc).2
           ++ [GpuCmd.writeUniforms uniformsByteSize tr]
           ++ batchCmds instances bd) := by
  simp [drawTail, h]

/-- Unfolding `drawTail` in the empty case: the early return. -/
lemma drawTail_empty (st : Pipeline) (lc : Nat) (tr : List ℚ)
    (bd : Nat × Nat × Nat × Nat) :
    drawTail st lc tr bd [] = (st, []) := rfl

/-- Length of a batch's instance slice: the full `amount`, since every
batch index pair stays within the instance list. -/
lemma batch_slice_length {α : Type} (l : List α) (p : Nat × Nat)
    (hp : p ∈ batchIndices 0 l.length) :
    ((l.drop p.1).take p.2).length = p.2 := by
  have h := batchIndices_mem 0 l.length p hp
  simp only [List.length_take, List.length_drop]
  omega

/-- The rebuild step's commands contain only bind-group recreations. -/
lemma rebuildStep_filter (st : Pipeline) (lc : Nat) (pred : GpuCmd → Bool)
    (hpred : pred (GpuCmd.createBindGroup lc) = false) :
    ((rebuildStep st lc).2).filter pred = [] := by
  rcases rebuildStep_cmds st lc with h | h <;> simp [h, hpred]

/-- The rebuild step's commands are dropped by any selector that ignores
bind-group recreations. -/
lemma rebuildStep_filterMap {α : Type} (st : Pipeline) (lc : Nat)
    (f : GpuCmd → Option α) (hf : f (GpuCmd.createBindGroup lc) = none) :
    ((rebuildStep st lc).2).filterMap f = [] := by
  rcases rebuildStep_cmds st lc with h | h <;> simp [h, hf]

/-! Concrete inputs used by the witness theorems. -/

/-- A sample atlas allocation: a 4 by 4 rectangle at the origin of layer 0. -/
def alloc0 : Allocation :=
  { position := (0, 0), size := (4, 4), layer := 0 }

/-- A sample draw request whose upload returned a contiguous entry. -/
def req1 : ImageRequest :=
  { x := 0, y := 0, width := 10, height := 10,
    entry := some (Entry.Contiguous alloc0) }

/-! Claim theorems. -/

/-- C3: a `Contiguous` entry yields exactly one instance with the request's
destination position and size; a `Fragmented` entry with original size
`fsize` and destination size `s` yields one instance per fragment, in
fragment order, whose destination position is the request position plus the
fragment's source position scaled per axis by `s / fsize`, and whose
destination size is the fragment's allocation size scaled by the same
factors. -/
theorem add_instances_layout (p s : ℚ × ℚ) (a : Allocation)
    (frags : List Fragment) (fsize : Nat × Nat) (acc : List Instance) :
    add_instances p s (Entry.Contiguous a) acc = acc ++ [instanceFor p s a]
    ∧ (instanceFor p s a).position = p
    ∧ (instanceFor p s a).size = s
    ∧ add_instances p s (Entry.Fragmented frags fsize) acc
        = acc ++ frags.map (fragmentInstance p s fsize)
    ∧ (∀ f : Fragment,
        (fragmentInstance p s fsize f).position
            = (p.1 + (f.position.1 : ℚ) * (s.1 / (fsize.1 : ℚ)),
               p.2 + (f.position.2 : ℚ) * (s.2 / (fsize.2 : ℚ)))
        ∧ (fragmentInstance p s fsize f).size
            = ((f.allocation.size.1 : ℚ) * (s.1 / (fsize.1 : ℚ)),
               (f.allocation.size.2 : ℚ) * (s.2 / (fsize.2 : ℚ)))) := by
  refine ⟨rfl, rfl, rfl, add_instances_fragmented p s frags fsize acc,
    fun f => ⟨rfl, rfl⟩⟩

/-- C5: every instance emitted from an allocation at position `(x, y)` with
size `(width, height)` in layer `L` has atlas UV offset
`((x + 0.5)/SIZE, (y + 0.5)/SIZE)`, atlas UV size
`((width - 1)/SIZE, (height - 1)/SIZE)` and layer field `L`. -/
theorem add_instance_uv_inset (p s : ℚ × ℚ) (a : Allocation)
    (acc : List Instance) :
    add_instance p s a acc
      = acc ++
        [{ position := p
           size := s
           positionInAtlas :=
             (((a.position.1 : ℚ) + 1/2) / (SIZE : ℚ),
              ((a.position.2 : ℚ) + 1/2) / (SIZE : ℚ))
           sizeInAtlas :=
             (((a.size.1 : ℚ) - 1) / (SIZE : ℚ),
              ((a.size.2 : ℚ) - 1) / (SIZE : ℚ))
           layer := a.layer }] := rfl

/-- C4: when the upload phase produces an empty instance list,
`Pipeline::draw` returns immediately: the pipeline state is untouched and
no GPU command of any kind (bind-group rebuild, uniform upload,
staging-belt write, render pass) is recorded. -/
theorem draw_empty_no_gpu_work (st : Pipeline) (images : List ImageRequest)
    (lc : Nat) (tr : List ℚ) (bd : Nat × Nat × Nat × Nat)
    (h : collectInstances images = []) :
    Pipeline.draw st images lc tr bd = (st, []) := by
  rw [Pipeline.draw, h, drawTail_empty]

/-- Witness for C4: a frame with no draw requests. -/
theorem draw_empty_no_gpu_work_witness :
    collectInstances [] = []
    ∧ Pipeline.draw (Pipeline.new 1) [] 1 [] (0, 0, 0, 0)
        = (Pipeline.new 1, []) :=
  ⟨rfl, draw_empty_no_gpu_work (Pipeline.new 1) [] 1 [] (0, 0, 0, 0) rfl⟩

/-- C9: after the early return the instance list is non-empty, so every
iteration of the batching loop has `amount ≥ 1`, the slice
`instances[i..i + amount]` is in bounds (its length is the full `amount`),
and the staging-belt write size `amount * size_of::<Instance>()` is
nonzero, so `BufferSize::new(..).unwrap()` cannot panic. -/
theorem draw_batching_in_bounds (instances : List Instance)
    (h : instances ≠ []) :
    1 ≤ instances.length
    ∧ ∀ p ∈ batchIndices 0 instances.length,
        1 ≤ p.2 ∧ p.1 + p.2 ≤ instances.length
        ∧ 0 < p.2 * instanceByteSize
        ∧ ((instances.drop p.1).take p.2).length = p.2 := by
  refine ⟨List.length_pos.mpr h, fun p hp => ?_⟩
  have hm := batchIndices_mem 0 instances.length p hp
  have hs := batch_slice_length instances p hp
  have hB : instanceByteSize = 36 := rfl
  refine ⟨hm.2.1, hm.2.2.2, ?_, hs⟩
  rw [hB]
  omega

/-- Witness for C9: a one-element instance list gives a single batch of
one instance with a 36-byte write. -/
theorem draw_batching_in_bounds_witness :
    [instanceFor (0, 0) (1, 1) alloc0] ≠ []
    ∧ (1 ≤ [instanceFor (0, 0) (1, 1) alloc0].length
       ∧ ∀ p ∈ batchIndices 0 [instanceFor (0, 0) (1, 1) alloc0].length,
           1 ≤ p.2 ∧ p.1 + p.2 ≤ [instanceFor (0, 0) (1, 1) alloc0].length
           ∧ 0 < p.2 * instanceByteSize
           ∧ (([instanceFor (0, 0) (1, 1) alloc0].drop p.1).take p.2).length
               = p.2) :=
  ⟨List.cons_ne_nil _ _,
   draw_batching_in_bounds [instanceFor (0, 0) (1, 1) alloc0]
     (List.cons_ne_nil _ _)⟩

/-- C1: when the upload phase produces `N > 0` instances, `Pipeline::draw`
issues exactly `ceil(N / 1000)` instanced draw calls, each with at most
1000 instances; each draw call's instance count equals the length of the
slice written for its batch; the concatenation of the batches' instance
slices is the full instance list in original order; and the instance list
itself is the request-order concatenation of each request's instances. -/
theorem draw_batching_ceil (st : Pipeline) (images : List ImageRequest)
    (lc : Nat) (tr : List ℚ) (bd : Nat × Nat × Nat × Nat)
    (h : 0 < (collectInstances images).length) :
    ((Pipeline.draw st images lc tr bd).2.filter GpuCmd.isRenderPass).length
        = ((collectInstances images).length + 999) / 1000
    ∧ (∀ n ∈ (Pipeline.draw st images lc tr bd).2.filterMap GpuCmd.passCount,
        n ≤ Instance.MAX)
    ∧ ((Pipeline.draw st images lc tr bd).2.filterMap
          GpuCmd.instanceData).flatten
        = collectInstances images
    ∧ (Pipeline.draw st images lc tr bd).2.filterMap GpuCmd.passCount
        = ((Pipeline.draw st images lc tr bd).2.filterMap
            GpuCmd.instanceData).map List.length
    ∧ collectInstances images = images.flatMap requestInstances := by
  have hne : collectInstances images ≠ [] := by
    intro hcon
    rw [hcon] at h
    simp at h
  rw [Pipeline.draw, drawTail_nonempty st lc tr bd _ hne]
  set l := collectInstances images with hl
  refine ⟨?_, ?_, ?_, ?_, collectInstances_eq_flatMap images⟩
  · rw [List.filter_append, List.filter_append,
      rebuildStep_filter st lc _ rfl, batchCmds,
      batchCmdsOf_filter_renderPass]
    have hM : Instance.MAX = 1000 := rfl
    simp only [List.nil_append, List.length_append, List.length_map,
      batchIndices_length, hM]
    simp [GpuCmd.isRenderPass]
  · intro n hn
    rw [List.filterMap_append, List.filterMap_append,
      rebuildStep_filterMap st lc _ rfl, batchCmds,
      batchCmdsOf_filterMap_passCount] at hn
    simp only [List.nil_append, List.mem_append] at hn
    rcases hn with hn | hn
    · simp [GpuCmd.passCount] at hn
    · rcases List.mem_map.mp hn with ⟨p, hp, hpn⟩
      have := batchIndices_mem 0 l.length p hp
      omega
  · rw [List.filterMap_append, List.filterMap_append,
      rebuildStep_filterMap st lc _ rfl, batchCmds,
      batchCmdsOf_filterMap_instanceData]
    have huni : ([GpuCmd.writeUniforms uniformsByteSize tr]).filterMap
        GpuCmd.instanceData = [] := by
      simp [GpuCmd.instanceData]
    rw [huni]
    simp only [List.nil_append]
    exact batchIndices_flatten l 0 l.length rfl
  · rw [List.filterMap_append, List.filterMap_append,
      List.filterMap_append, List.filterMap_append,
      rebuildStep_filterMap st lc _ rfl, rebuildStep_filterMap st lc _ rfl,
      batchCmds, batchCmdsOf_filterMap_passCount,
      batchCmdsOf_filterMap_instanceData]
    have huni1 : ([GpuCmd.writeUniforms uniformsByteSize tr]).filterMap
        GpuCmd.passCount = [] := by
      simp [GpuCmd.passCount]
    have huni2 : ([GpuCmd.writeUniforms uniformsByteSize tr]).filterMap
        GpuCmd.instanceData = [] := by
      simp [GpuCmd.instanceData]
    rw [huni1, huni2]
    simp only [List.nil_append, List.map_map]
    apply List.map_congr_left
    intro p hp
    exact (batch_slice_length l p hp).symm

/-- Witness for C1: one request with a contiguous entry gives one instance,
one batch and one draw call. -/
theorem draw_batching_ceil_witness :
    0 < (collectInstances [req1]).length
    ∧ (((Pipeline.draw (Pipeline.new 1) [req1] 1 [] (0, 0, 0, 0)).2.filter
          GpuCmd.isRenderPass).length
        = ((collectInstances [req1]).length + 999) / 1000
      ∧ (∀ n ∈ (Pipeline.draw (Pipeline.new 1) [req1] 1 []
            (0, 0, 0, 0)).2.filterMap GpuCmd.passCount, n ≤ Instance.MAX)
      ∧ ((Pipeline.draw (Pipeline.new 1) [req1] 1 []
            (0, 0, 0, 0)).2.filterMap GpuCmd.instanceData).flatten
          = collectInstances [req1]
      ∧ (Pipeline.draw (Pipeline.new 1) [req1] 1 []
            (0, 0, 0, 0)).2.filterMap GpuCmd.passCount
          = ((Pipeline.draw (Pipeline.new 1) [req1] 1 []
              (0, 0, 0, 0)).2.filterMap GpuCmd.instanceData).map List.length
      ∧ collectInstances [req1] = [req1].flatMap requestInstances) :=
  ⟨by decide,
   draw_batching_ceil (Pipeline.new 1) [req1] 1 [] (0, 0, 0, 0) (by decide)⟩

/-- C6: on a non-empty frame the global transform uniform is written
exactly once, via a single staging-belt write region sized to the
`Uniforms` payload (64 bytes), regardless of the number of instances or
batches. -/
theorem draw_uniforms_once (st : Pipeline) (images : List ImageRequest)
    (lc : Nat) (tr : List ℚ) (bd : Nat × Nat × Nat × Nat)
    (h : collectInstances images ≠ []) :
    (Pipeline.draw st images lc tr bd).2.filter GpuCmd.isWriteUniforms
        = [GpuCmd.writeUniforms uniformsByteSize tr]
    ∧ uniformsByteSize = 64 := by
  rw [Pipeline.draw, drawTail_nonempty st lc tr bd _ h]
  refine ⟨?_, rfl⟩
  rw [List.filter_append, List.filter_append,
    rebuildStep_filter st lc _ rfl, batchCmds,
    batchCmdsOf_filter_writeUniforms]
  simp [GpuCmd.isWriteUniforms]

/-- Witness for C6: a single contiguous request. -/
theorem draw_uniforms_once_witness :
    collectInstances [req1] ≠ []
    ∧ ((Pipeline.draw (Pipeline.new 1) [req1] 1 [] (0, 0, 0, 0)).2.filter
          GpuCmd.isWriteUniforms
        = [GpuCmd.writeUniforms uniformsByteSize []]
      ∧ uniformsByteSize = 64) :=
  ⟨by decide,
   draw_uniforms_once (Pipeline.new 1) [req1] 1 [] (0, 0, 0, 0) (by decide)⟩

/-- C7: every batch is submitted as one instanced draw call over the fixed
4-vertex, 6-index unit-quad geometry (indices `[0,1,2,0,2,3]` over the unit
square's corners), with the viewport clip bounds as the scissor rectangle
of the batch's render pass, and with the batch's instance data written into
a staging-belt region sized exactly `amount * size_of::<Instance>()`. -/
theorem draw_batch_submission (st : Pipeline) (images : List ImageRequest)
    (lc : Nat) (tr : List ℚ) (bd : Nat × Nat × Nat × Nat) :
    QUAD_INDICES = [0, 1, 2, 0, 2, 3]
    ∧ QUAD_VERTS = [(0, 0), (1, 0), (1, 1), (0, 1)]
    ∧ QUAD_VERTS.length = 4
    ∧ (∀ c ∈ (Pipeline.draw st images lc tr bd).2,
        ∀ sc ic n, c = GpuCmd.renderPass sc ic n →
          sc = bd ∧ ic = QUAD_INDICES.length ∧ n ≤ Instance.MAX)
    ∧ (∀ c ∈ (Pipeline.draw st images lc tr bd).2,
        ∀ sz d, c = GpuCmd.writeInstances sz d →
          sz = d.length * instanceByteSize)
    ∧ ((Pipeline.draw st images lc tr bd).2.filter
          GpuCmd.isWriteInstances).length
        = ((Pipeline.draw st images lc tr bd).2.filter
            GpuCmd.isRenderPass).length := by
  refine ⟨rfl, rfl, rfl, ?_, ?_, ?_⟩
  · intro c hc sc ic n hceq
    by_cases hins : collectInstances images = []
    · rw [draw_empty_no_gpu_work st images lc tr bd hins] at hc
      exact absurd hc (List.not_mem_nil c)
    · rw [Pipeline.draw, drawTail_nonempty st lc tr bd _ hins] at hc
      subst hceq
      simp only [List.mem_append] at hc
      rcases hc with (hc | hc) | hc
      · rcases rebuildStep_cmds st lc with hr | hr <;> rw [hr] at hc <;>
          simp at hc
      · simp at hc
      · rw [batchCmds, batchCmdsOf] at hc
        rcases List.mem_flatMap.mp hc with ⟨p, hp, hcp⟩
        have hm := batchIndices_mem 0 (collectInstances images).length p hp
        simp only [List.mem_cons, List.not_mem_nil, or_false] at hcp
        rcases hcp with hcp | hcp
        · simp at hcp
        · rw [GpuCmd.renderPass.injEq] at hcp
          refine ⟨hcp.1, hcp.2.1, ?_⟩
          rw [hcp.2.2]
          exact hm.2.2.1
  · intro c hc sz d hceq
    by_cases hins : collectInstances images = []
    · rw [draw_empty_no_gpu_work st images lc tr bd hins] at hc
      exact absurd hc (List.not_mem_nil c)
    · rw [Pipeline.draw, drawTail_nonempty st lc tr bd _ hins] at hc
      subst hceq
      simp only [List.mem_append] at hc
      rcases hc with (hc | hc) | hc
      · rcases rebuildStep_cmds st lc with hr | hr <;> rw [hr] at hc <;>
          simp at hc
      · simp at hc
      · rw [batchCmds, batchCmdsOf] at hc
        rcases List.mem_flatMap.mp hc with ⟨p, hp, hcp⟩
        simp only [List.mem_cons, List.not_mem_nil, or_false] at hcp
        rcases hcp with hcp | hcp
        · rw [GpuCmd.writeInstances.injEq] at hcp
          have hs := batch_slice_length (collectInstances images) p hp
          rw [hcp.1, hcp.2, hs]
        · simp at hcp
  · by_cases hins : collectInstances images = []
    · rw [draw_empty_no_gpu_work st images lc tr bd hins]
      rfl
    · rw [Pipeline.draw, drawTail_nonempty st lc tr bd _ hins]
      rw [List.filter_append, List.filter_append, List.filter_append,
        List.filter_append, rebuildStep_filter st lc _ rfl,
        rebuildStep_filter st lc _ rfl, batchCmds,
        batchCmdsOf_filter_writeInstances, batchCmdsOf_filter_renderPass]
      simp [GpuCmd.isWriteInstances, GpuCmd.isRenderPass]

/-- C2 counterexample: a call to `Pipeline::draw` whose upload phase yields
no instances, while the atlas's `layer_count()` (2) differs from the stored
`texture_version` (1). The call returns with no command recorded at all —
in particular no bind-group rebuild — and the state (including
`texture_version`) unchanged, so no rebuild is signalled or performed on
this call, refuting the claim's universal quantification over calls;
moreover `Pipeline::draw` performs the rebuild itself rather than
returning a flag to its caller. -/
theorem draw_rebuild_counterexample :
    (Pipeline.new 1).texture_version ≠ 2
    ∧ Pipeline.draw (Pipeline.new 1) [] 2 [] (0, 0, 0, 0)
        = (Pipeline.new 1, [])
    ∧ (Pipeline.draw (Pipeline.new 1) [] 2 [] (0, 0, 0, 0)).2.filter
        GpuCmd.isCreateBindGroup = [] := by
  refine ⟨by decide, rfl, rfl⟩

/-- C2 (amended): on every call to `Pipeline::draw` whose upload phase
produces a non-empty instance list and in which the atlas's `layer_count()`
differs from the stored `texture_version`, the draw operation itself
recreates the texture bind group (there is no flag returned to the caller)
and updates `texture_version`; the recreation is the first recorded
command, hence it happens before any of that frame's draw calls, and it is
recorded exactly once. -/
theorem draw_rebuild_amended (st : Pipeline) (images : List ImageRequest)
    (lc : Nat) (tr : List ℚ) (bd : Nat × Nat × Nat × Nat)
    (hne : collectInstances images ≠ [])
    (hv : st.texture_version ≠ lc) :
    (Pipeline.draw st images lc tr bd).2.head?
        = some (GpuCmd.createBindGroup lc)
    ∧ (Pipeline.draw st images lc tr bd).1.texture_version = lc
    ∧ (Pipeline.draw st images lc tr bd).1.texture = lc
    ∧ (Pipeline.draw st images lc tr bd).2.filter GpuCmd.isCreateBindGroup
        = [GpuCmd.createBindGroup lc] := by
  rw [Pipeline.draw, drawTail_nonempty st lc tr bd _ hne]
  have hr : rebuildStep st lc
      = ({ texture_version := lc, texture := lc },
         [GpuCmd.createBindGroup lc]) := by
    simp [rebuildStep, hv]
  rw [hr]
  refine ⟨rfl, rfl, rfl, ?_⟩
  rw [List.filter_append, List.filter_append, batchCmds,
    batchCmdsOf_filter_createBindGroup]
  simp [GpuCmd.isCreateBindGroup]

/-- Witness for the amended C2: one contiguous request, stored version 1,
atlas layer count 2. -/
theorem draw_rebuild_amended_witness :
    collectInstances [req1] ≠ []
    ∧ (Pipeline.new 1).texture_version ≠ 2
    ∧ ((Pipeline.draw (Pipeline.new 1) [req1] 2 [] (0, 0, 0, 0)).2.head?
          = some (GpuCmd.createBindGroup 2)
      ∧ (Pipeline.draw (Pipeline.new 1) [req1] 2 []
            (0, 0, 0, 0)).1.texture_version = 2
      ∧ (Pipeline.draw (Pipeline.new 1) [req1] 2 []
            (0, 0, 0, 0)).1.texture = 2
      ∧ (Pipeline.draw (Pipeline.new 1) [req1] 2 []
            (0, 0, 0, 0)).2.filter GpuCmd.isCreateBindGroup
          = [GpuCmd.createBindGroup 2]) :=
  ⟨by decide, by decide,
   draw_rebuild_amended (Pipeline.new 1) [req1] 2 [] (0, 0, 0, 0)
     (by decide) (by decide)⟩

/-- C10: a call to `Pipeline::draw` that produces no instances leaves the
stored `texture_version` and the texture bind group unchanged even when the
atlas's `layer_count()` differs (the comparison is only performed on
non-empty frames), records no bind-group rebuild, and the rebuild is
deferred: the next call with a non-empty instance list records the
recreation as its first command. -/
theorem draw_empty_defers_rebuild (st : Pipeline)
    (images images2 : List ImageRequest) (lc : Nat) (tr : List ℚ)
    (bd : Nat × Nat × Nat × Nat)
    (h : collectInstances images = [])
    (h2 : collectInstances images2 ≠ [])
    (hv : st.texture_version ≠ lc) :
    (Pipeline.draw st images lc tr bd).1.texture_version
        = st.texture_version
    ∧ (Pipeline.draw st images lc tr bd).1.texture = st.texture
    ∧ (Pipeline.draw st images lc tr bd).2 = []
    ∧ (Pipeline.draw (Pipeline.draw st images lc tr bd).1 images2 lc tr
          bd).2.head?
        = some (GpuCmd.createBindGroup lc) := by
  have hempty : Pipeline.draw st images lc tr bd = (st, []) := by
    rw [Pipeline.draw, h, drawTail_empty]
  rw [hempty]
  refine ⟨rfl, rfl, rfl, ?_⟩
  rw [Pipeline.draw, drawTail_nonempty st lc tr bd _ h2]
  have hr : rebuildStep st lc
      = ({ texture_version := lc, texture := lc },
         [GpuCmd.createBindGroup lc]) := by
    simp [rebuildStep, hv]
  rw [hr]
  rfl

/-- Witness for C10: an empty frame with a grown atlas, followed by a
non-empty frame. -/
theorem draw_empty_defers_rebuild_witness :
    collectInstances [] = []
    ∧ collectInstances [req1] ≠ []
    ∧ (Pipeline.new 1).texture_version ≠ 2
    ∧ ((Pipeline.draw (Pipeline.new 1) [] 2 [] (0, 0, 0, 0)).1.texture_version
          = (Pipeline.new 1).texture_version
      ∧ (Pipeline.draw (Pipeline.new 1) [] 2 [] (0, 0, 0, 0)).1.texture
          = (Pipeline.new 1).texture
      ∧ (Pipeline.draw (Pipeline.new 1) [] 2 [] (0, 0, 0, 0)).2 = []
      ∧ (Pipeline.draw
            (Pipeline.draw (Pipeline.new 1) [] 2 [] (0, 0, 0, 0)).1
            [req1] 2 [] (0, 0, 0, 0)).2.head?
          = some (GpuCmd.createBindGroup 2)) :=
  ⟨rfl, by decide, by decide,
   draw_empty_defers_rebuild (Pipeline.new 1) [] [req1] 2 [] (0, 0, 0, 0)
     rfl (by decide) (by decide)⟩

/-- C8: in `Compositor::draw` the staging belt is marked finished before
the command buffer is submitted, the recall task is spawned afterwards,
and the local pool is polled (`run_until_stalled`) exactly once per frame,
as the last step — i.e. finish, submit, spawn recall, poll, in that
order, every frame. -/
theorem compositor_draw_order :
    Compositor.draw.count CompositorEvent.beltFinish = 1
    ∧ Compositor.draw.count CompositorEvent.queueSubmit = 1
    ∧ Compositor.draw.count CompositorEvent.spawnRecall = 1
    ∧ Compositor.draw.count CompositorEvent.runUntilStalled = 1
    ∧ Compositor.draw.indexOf CompositorEvent.beltFinish
        < Compositor.draw.indexOf CompositorEvent.queueSubmit
    ∧ Compositor.draw.indexOf CompositorEvent.queueSubmit
        < Compositor.draw.indexOf CompositorEvent.spawnRecall
    ∧ Compositor.draw.indexOf CompositorEvent.spawnRecall
        < Compositor.draw.indexOf CompositorEvent.runUntilStalled
    ∧ Compositor.draw.getLast? = some CompositorEvent.runUntilStalled := by
  decide

end IcedWgpu
